import Mathlib

/-
Verification of the ATtiny85 USB power tester firmware (`USB_Tester` v1.4).

The definitions below are a shallow embedding of the C source: machine
integers (`uint8_t`, `uint16_t`, `uint32_t`) are modelled as `Nat` with an
explicit `% 2^w` applied exactly where C truncation or wrap-around occurs,
byte streams written to the OLED are `List Nat`, and the `main` loop is a
step function on an explicit state record folded over a list of
per-iteration inputs (sensor register reads, millis-counter reads and the
polled SET-button level).
-/

set_option maxHeartbeats 1000000
set_option maxRecDepth 200000

/-- 2^16, the modulus of C `uint16_t` arithmetic. -/
def UINT16_MOD : Nat := 65536

/-- 2^32, the modulus of C `uint32_t` arithmetic. -/
def UINT32_MOD : Nat := 4294967296

/-- Character definition `#define DECIMAL 15`. -/
def DECIMAL : Nat := 15

/-- Character definition `#define COLON 16`. -/
def COLON : Nat := 16

/-- Character definition `#define SPACE 18`. -/
def SPACE : Nat := 18

/-- INA219 bus-voltage decode, from `INA_readVoltage`:
`return((INA_read(INA_REG_VOLTAGE) >> 1) & 0xFFFC);`.
The raw 16-bit register content is the argument. -/
def INA_readVoltage (raw : Nat) : Nat := (raw >>> 1) &&& 0xFFFC

/-- INA219 current decode, from `INA_readCurrent`:
`if(result > 32767) result = 0;` applied to the raw register read. -/
def INA_readCurrent (raw : Nat) : Nat :=
  if raw > 32767 then 0 else raw

/-- The OLED 6x16 font table `OLED_FONT` (19 glyphs, 12 bytes each;
each glyph is 6 pixel columns of 2 bytes). -/
def OLED_FONT : List Nat := [
  0x7C, 0x1F, 0x02, 0x20, 0x02, 0x20, 0x02, 0x20, 0x02, 0x20, 0x7C, 0x1F, --  0 0
  0x00, 0x00, 0x00, 0x00, 0x00, 0x00, 0x00, 0x00, 0x00, 0x00, 0x7C, 0x1F, --  1 1
  0x00, 0x1F, 0x82, 0x20, 0x82, 0x20, 0x82, 0x20, 0x82, 0x20, 0x7C, 0x00, --  2 2
  0x00, 0x00, 0x82, 0x20, 0x82, 0x20, 0x82, 0x20, 0x82, 0x20, 0x7C, 0x1F, --  3 3
  0x7C, 0x00, 0x80, 0x00, 0x80, 0x00, 0x80, 0x00, 0x80, 0x00, 0x7C, 0x1F, --  4 4
  0x7C, 0x00, 0x82, 0x20, 0x82, 0x20, 0x82, 0x20, 0x82, 0x20, 0x00, 0x1F, --  5 5
  0x7C, 0x1F, 0x82, 0x20, 0x82, 0x20, 0x82, 0x20, 0x82, 0x20, 0x00, 0x1F, --  6 6
  0x7C, 0x00, 0x02, 0x00, 0x02, 0x00, 0x02, 0x00, 0x02, 0x00, 0x7C, 0x1F, --  7 7
  0x7C, 0x1F, 0x82, 0x20, 0x82, 0x20, 0x82, 0x20, 0x82, 0x20, 0x7C, 0x1F, --  8 8
  0x7C, 0x00, 0x82, 0x20, 0x82, 0x20, 0x82, 0x20, 0x82, 0x20, 0x7C, 0x1F, --  9 9
  0x00, 0x00, 0xF0, 0x3F, 0x8C, 0x00, 0x82, 0x00, 0x8C, 0x00, 0xF0, 0x3F, -- 10 A
  0x00, 0x00, 0xFE, 0x07, 0x00, 0x18, 0x00, 0x20, 0x00, 0x18, 0xFE, 0x07, -- 11 V
  0x00, 0x00, 0xFE, 0x1F, 0x00, 0x20, 0x00, 0x1F, 0x00, 0x20, 0xFE, 0x1F, -- 12 W
  0x00, 0x00, 0xFE, 0x3F, 0x00, 0x01, 0x80, 0x00, 0x80, 0x00, 0x00, 0x3F, -- 13 h
  0x00, 0x00, 0x80, 0x3F, 0x80, 0x00, 0x80, 0x3F, 0x80, 0x00, 0x00, 0x3F, -- 14 m
  0x00, 0x00, 0x00, 0x00, 0x00, 0x30, 0x00, 0x30, 0x00, 0x00, 0x00, 0x00, -- 15 .
  0x00, 0x00, 0x00, 0x00, 0x30, 0x06, 0x30, 0x06, 0x00, 0x00, 0x00, 0x00, -- 16 :
  0x80, 0x00, 0x80, 0x00, 0x80, 0x00, 0x80, 0x00, 0x80, 0x00, 0x80, 0x00, -- 17 -
  0x00, 0x00, 0x00, 0x00, 0x00, 0x00, 0x00, 0x00, 0x00, 0x00, 0x00, 0x00  -- 18 SPACE
]

/-- `OLED_plotChar`: the byte stream sent for one glyph.  The C code computes
`ch = (ch << 3) + (ch << 2)` in the `uint8_t` variable `ch` (so `12 * ch`
truncated mod 256), writes two `0x00` spacing bytes, the 12 font bytes read
at `OLED_FONT[ch]`..`OLED_FONT[ch+11]` (the `uint8_t` index wrapping mod
256), then two more `0x00` spacing bytes. -/
def OLED_plotChar (ch : Nat) : List Nat :=
  let pos := (ch * 8 + ch * 4) % 256
  [0, 0] ++ (List.range 12).map (fun i => OLED_FONT.getD ((pos + i) % 256) 0) ++ [0, 0]

/-- `OLED_printPrg`: plot glyphs from a program-memory string until the
terminator byte 255 is reached (`while(ch < 255)`).  The argument is the
byte sequence stored at the pointer; the result is the data byte stream
sent to the display. -/
def OLED_printPrg : List Nat → List Nat
  | [] => []
  | c :: cs => if c < 255 then OLED_plotChar c ++ OLED_printPrg cs else []

/-- The BCD conversion array `DIVIDER`. -/
def DIVIDER : List Nat := [10000, 1000, 100, 10, 1]

/-- The subtraction loop shared by the decimal printers:
`while(value >= divider) { digitval++; value -= divider; }` returning the
final `(digitval, value)`.  The counter `digitval` is a `uint8_t` in every
printer, so its increment wraps mod 256 (it does wrap in `OLED_printDec12`
for arguments of 25600 and above).  The `0 < divider` conjunct only makes
termination evident; every call site passes a positive divider from
`DIVIDER` (or the constant 10), for which the condition is exactly the
C loop guard. -/
def bcdLoop (value divider digitval : Nat) : Nat × Nat :=
  if h : 0 < divider ∧ divider ≤ value then
    bcdLoop (value - divider) divider ((digitval + 1) % 256)
  else (digitval, value)
termination_by value
decreasing_by omega

/-- The digit loop of `OLED_printDec16`
(`for(uint8_t digit = 0; digit < 5; digit++)`), carrying the `leadflag`
state; `leadflag = 1` is assigned inside the while body, i.e. exactly when
the subtraction loop runs at least once, which is `divider ≤ value`.
Yields the glyph indices plotted. -/
def printDec16From (digit leadflag value : Nat) : List Nat :=
  if h : digit < 5 then
    let divider := DIVIDER.getD digit 1
    let r := bcdLoop value divider 0
    let leadflag' := if divider ≤ value then 1 else leadflag
    (if leadflag' ≠ 0 ∨ digit = 4 then r.1 else SPACE) ::
      printDec16From (digit + 1) leadflag' r.2
  else []
termination_by 5 - digit
decreasing_by omega

/-- `OLED_printDec16`: print a 16-bit value as a 5-digit decimal with
leading spaces.  The result is the list of glyph indices plotted. -/
def OLED_printDec16 (value : Nat) : List Nat := printDec16From 0 0 value

/-- The digit loop of `OLED_printDec12`
(`for(uint8_t digit = 2; digit < 5; digit++)`), with no leading-space
handling. -/
def printDec12From (digit value : Nat) : List Nat :=
  if h : digit < 5 then
    let r := bcdLoop value (DIVIDER.getD digit 1) 0
    r.1 :: printDec12From (digit + 1) r.2
  else []
termination_by 5 - digit
decreasing_by omega

/-- `OLED_printDec12`: print a 16-bit value as a 3-digit decimal
(digit positions 2..4 of `DIVIDER`), zero-filled. -/
def OLED_printDec12 (value : Nat) : List Nat := printDec12From 2 value

/-- `OLED_printDec8`: print an 8-bit value as a 2-digit decimal; the tens
digit comes from the subtraction loop with divider 10 and the remaining
value is the units glyph. -/
def OLED_printDec8 (value : Nat) : List Nat :=
  let r := bcdLoop value 10 0
  [r.1, r.2]

/-- Calling `OLED_printDec16` through its C prototype
`void OLED_printDec16(uint16_t value)`: the argument is implicitly
converted to `uint16_t`, i.e. reduced mod 65536, before the function body
runs. -/
def OLED_printDec16_call (v : Nat) : List Nat := OLED_printDec16 (v % UINT16_MOD)

/-- Parsing harness for the 5-digit printer, from the claim: read the five
glyphs as decimal digits, treating the SPACE filler as an absent digit
(contributing 0). -/
def parseDec5 (gs : List Nat) : Nat :=
  gs.foldl (fun a g => 10 * a + (if g = SPACE then 0 else g)) 0

/-- Parsing harness for the 3-digit printer, from the claim: read the three
digit glyphs as a decimal number. -/
def parseDec3 (gs : List Nat) : Nat :=
  gs.foldl (fun a g => 10 * a + g) 0

/-- The local state of `main` that survives from one loop iteration to the
next.  `voltage`, `current`, `power`, `nowmillis`, `interval` and `seconds`
are recomputed every iteration and are not part of the persistent state. -/
structure MainState where
  minvoltage : Nat
  maxvoltage : Nat
  mincurrent : Nat
  maxcurrent : Nat
  minpower : Nat
  maxpower : Nat
  lastmillis : Nat
  duration : Nat
  capacity : Nat
  energy : Nat
  primescreen : Nat
  lastbutton : Nat

/-- The environment readings one loop iteration consumes: the INA219
bus-voltage and current register contents, the value of the millis counter
at `MIL_read()`, and whether `PINB & (1<<PIN_SET)` is nonzero (SET button
released; the button is active-low). -/
structure MainInput where
  rawVoltage : Nat
  rawCurrent : Nat
  now : Nat
  setHigh : Bool

/-- The initial values of `main`'s locals: min/max pairs `{65535, 0}`,
`duration = 0`, `capacity = 0`, `energy = 0`, `primescreen = 0`,
`lastbutton = 1`; `lastmillis` is the millis counter value read once
before the loop (`lastmillis = MIL_read()`). -/
def mainInit (m0 : Nat) : MainState :=
  ⟨65535, 0, 65535, 0, 65535, 0, m0 % UINT32_MOD, 0, 0, 0, 0, 1⟩

/-- `interval = nowmillis - lastmillis` in `uint32_t` arithmetic
(wrapping subtraction mod 2^32). -/
def mainInterval (s : MainState) (inp : MainInput) : Nat :=
  (inp.now % UINT32_MOD + UINT32_MOD - s.lastmillis) % UINT32_MOD

/-- `power = (uint32_t)voltage * current / 1000` assigned to the `uint16_t`
variable `power` (the 32-bit product of two 16-bit values cannot wrap;
the final assignment truncates mod 65536). -/
def mainPower (voltage current : Nat) : Nat :=
  voltage * current / 1000 % UINT16_MOD

/-- The amount added to `capacity` in one iteration:
`interval * current / 3600` in `uint32_t` arithmetic (the product wraps
mod 2^32 before the truncating division). -/
def mainCapInc (s : MainState) (inp : MainInput) : Nat :=
  mainInterval s inp * INA_readCurrent inp.rawCurrent % UINT32_MOD / 3600

/-- The amount added to `energy` in one iteration:
`interval * power / 3600` in `uint32_t` arithmetic. -/
def mainEnInc (s : MainState) (inp : MainInput) : Nat :=
  mainInterval s inp *
      mainPower (INA_readVoltage inp.rawVoltage) (INA_readCurrent inp.rawCurrent) %
      UINT32_MOD / 3600

/-- One iteration of the `while(1)` loop in `main`: sensor reads, timing
update, power/capacity/energy accumulation (`uint32_t` additions wrap mod
2^32), min/max updates, and the SET-button debounce
(`if(PINB & (1<<PIN_SET)) lastbutton = 0; else if(!lastbutton) { if(++primescreen > 4) primescreen = 0; ... lastbutton = 1; }`;
`primescreen` is a `uint8_t`, so the increment is taken mod 256).
The OLED rendering emits bytes but changes no state. -/
def mainStep (s : MainState) (inp : MainInput) : MainState :=
  let voltage := INA_readVoltage inp.rawVoltage
  let current := INA_readCurrent inp.rawCurrent
  let nowmillis := inp.now % UINT32_MOD
  let power := mainPower voltage current
  let duration := (s.duration + mainInterval s inp) % UINT32_MOD
  let capacity := (s.capacity + mainCapInc s inp) % UINT32_MOD
  let energy := (s.energy + mainEnInc s inp) % UINT32_MOD
  let minvoltage := if s.minvoltage > voltage then voltage else s.minvoltage
  let maxvoltage := if s.maxvoltage < voltage then voltage else s.maxvoltage
  let mincurrent := if s.mincurrent > current then current else s.mincurrent
  let maxcurrent := if s.maxcurrent < current then current else s.maxcurrent
  let minpower := if s.minpower > power then power else s.minpower
  let maxpower := if s.maxpower < power then power else s.maxpower
  let primescreen :=
    if inp.setHigh then s.primescreen
    else if s.lastbutton = 0 then
      (if (s.primescreen + 1) % 256 > 4 then 0 else (s.primescreen + 1) % 256)
    else s.primescreen
  let lastbutton :=
    if inp.setHigh then 0
    else if s.lastbutton = 0 then 1
    else s.lastbutton
  ⟨minvoltage, maxvoltage, mincurrent, maxcurrent, minpower, maxpower,
    nowmillis, duration, capacity, energy, primescreen, lastbutton⟩

/-- Running the main loop over a list of per-iteration inputs. -/
def mainRun (s : MainState) (l : List MainInput) : MainState :=
  l.foldl mainStep s

/-- `seconds = duration / 1000` assigned to the `uint16_t` variable
`seconds` (truncating mod 65536). -/
def mainSeconds (duration : Nat) : Nat := duration / 1000 % UINT16_MOD

/-- The glyph sequence of screen 4 (`case 4` of the display `switch`):
`HH:MM:SS` built from the 16-bit `seconds` value with `OLED_printDec8`
and the COLON glyph, via `seconds / 3600`, `seconds %= 3600`,
`seconds / 60`, `seconds % 60`. -/
def screen4Glyphs (seconds : Nat) : List Nat :=
  OLED_printDec8 (seconds / 3600) ++ [COLON] ++
    OLED_printDec8 (seconds % 3600 / 60) ++ [COLON] ++
    OLED_printDec8 (seconds % 3600 % 60)

/-- Count of debounced presses as the claim defines them: transitions from
released to pressed between consecutive poll iterations.  The first
argument is the previously observed level (`true` = pressed); the initial
previous level is taken as pressed, matching `lastbutton = 1` at startup
(a button already held at power-on does not count). -/
def countTrans : Bool → List Bool → Nat
  | _, [] => 0
  | prev, b :: bs => (if b && !prev then 1 else 0) + countTrans b bs

/-- Per-interval capacity gains without 32-bit wrap-around:
`interval * current / 3600` summed over a list of intervals at constant
current 1000 mA. -/
def capSum (l : List Nat) : Nat := (l.map (fun i => i * 1000 / 3600)).sum

/-- Per-interval energy gains without 32-bit wrap-around:
`interval * power / 3600` summed over a list of intervals at constant
power 5000 mW. -/
def enSum (l : List Nat) : Nat := (l.map (fun i => i * 5000 / 3600)).sum

/-- The input list for the constant-load scenario of the end-to-end claim:
raw bus-voltage register 10000 (decoding to 5000 mV), raw current register
1000 (decoding to 1000 mA), button released, and millis readings that are
the running sums of the given intervals starting from `m`. -/
def c9Inputs (m : Nat) : List Nat → List MainInput
  | [] => []
  | i :: is => ⟨10000, 1000, m + i, true⟩ :: c9Inputs (m + i) is

theorem bcdLoop_eq {d : Nat} (hd : 0 < d) :
    ∀ v a, a < 256 → bcdLoop v d a = ((a + v / d) % 256, v % d) := by
  intro v
  induction v using Nat.strong_induction_on with
  | _ v ih =>
    intro a ha
    rw [bcdLoop]
    by_cases h : d ≤ v
    · rw [dif_pos ⟨hd, h⟩, ih (v - d) (by omega) ((a + 1) % 256) (by omega),
        Nat.div_eq_sub_div hd h, ← Nat.mod_eq_sub_mod h]
      rw [Prod.mk.injEq]
      refine ⟨?_, rfl⟩
      rw [Nat.mod_add_mod]
      congr 1
      ring
    · rw [dif_neg (fun hc => h hc.2), Nat.div_eq_of_lt (by omega)]
      rw [Prod.mk.injEq]
      refine ⟨?_, ?_⟩
      · rw [Nat.add_zero, Nat.mod_eq_of_lt ha]
      · rw [Nat.mod_eq_of_lt (by omega : v < d)]

theorem bcdLoop_zero {d : Nat} (hd : 0 < d) (v : Nat) :
    bcdLoop v d 0 = (v / d % 256, v % d) := by
  rw [bcdLoop_eq hd v 0 (by omega), Prod.mk.injEq]
  exact ⟨by rw [Nat.zero_add], rfl⟩

theorem printDec16From_five (lf v : Nat) : printDec16From 5 lf v = [] := by
  rw [printDec16From]
  simp

theorem printDec16From_step (digit lf v : Nat) (h : digit < 5) :
    printDec16From digit lf v =
      (if (if DIVIDER.getD digit 1 ≤ v then 1 else lf) ≠ 0 ∨ digit = 4
         then v / DIVIDER.getD digit 1 % 256 else SPACE) ::
        printDec16From (digit + 1)
          (if DIVIDER.getD digit 1 ≤ v then 1 else lf)
          (v % DIVIDER.getD digit 1) := by
  have hd : 0 < DIVIDER.getD digit 1 := by
    interval_cases digit <;> decide
  rw [printDec16From, dif_pos h]
  simp only [bcdLoop_zero hd]

theorem printDec12From_five (v : Nat) : printDec12From 5 v = [] := by
  rw [printDec12From]
  simp

theorem printDec12From_step (digit v : Nat) (h : digit < 5) :
    printDec12From digit v =
      v / DIVIDER.getD digit 1 % 256 ::
        printDec12From (digit + 1) (v % DIVIDER.getD digit 1) := by
  have hd : 0 < DIVIDER.getD digit 1 := by
    interval_cases digit <;> decide
  rw [printDec12From, dif_pos h]
  simp only [bcdLoop_zero hd]

theorem printDec16_digits (v : Nat) (h : v < 100000) :
    OLED_printDec16 v =
      [if v < 10000 then SPACE else v / 10000,
       if v < 1000 then SPACE else v % 10000 / 1000,
       if v < 100 then SPACE else v % 1000 / 100,
       if v < 10 then SPACE else v % 100 / 10,
       v % 10] := by
  unfold OLED_printDec16
  rw [printDec16From_step 0 _ _ (by omega), printDec16From_step 1 _ _ (by omega),
    printDec16From_step 2 _ _ (by omega), printDec16From_step 3 _ _ (by omega),
    printDec16From_step 4 _ _ (by omega), printDec16From_five]
  have g0 : DIVIDER.getD 0 1 = 10000 := rfl
  have g1 : DIVIDER.getD 1 1 = 1000 := rfl
  have g2 : DIVIDER.getD 2 1 = 100 := rfl
  have g3 : DIVIDER.getD 3 1 = 10 := rfl
  have g4 : DIVIDER.getD 4 1 = 1 := rfl
  rw [g0, g1, g2, g3, g4]
  have m1 : v % 10000 % 1000 = v % 1000 := Nat.mod_mod_of_dvd v (by norm_num)
  rw [m1]
  have m2 : v % 1000 % 100 = v % 100 := Nat.mod_mod_of_dvd v (by norm_num)
  rw [m2]
  have m3 : v % 100 % 10 = v % 10 := Nat.mod_mod_of_dvd v (by norm_num)
  rw [m3]
  have n0 : v / 10000 % 256 = v / 10000 := by omega
  have n1 : v % 10000 / 1000 % 256 = v % 10000 / 1000 := by omega
  have n2 : v % 1000 / 100 % 256 = v % 1000 / 100 := by omega
  have n3 : v % 100 / 10 % 256 = v % 100 / 10 := by omega
  have n4 : v % 10 / 1 % 256 = v % 10 := by omega
  rw [n0, n1, n2, n3, n4]
  rcases Nat.lt_or_ge v 10 with c | c
  · simp [show ¬ 10000 ≤ v by omega, show ¬ 1000 ≤ v % 10000 by omega,
      show ¬ 100 ≤ v % 1000 by omega, show ¬ 10 ≤ v % 100 by omega,
      show v < 10000 by omega, show v < 1000 by omega, show v < 100 by omega, c]
  rcases Nat.lt_or_ge v 100 with c' | c'
  · simp [show ¬ 10000 ≤ v by omega, show ¬ 1000 ≤ v % 10000 by omega,
      show ¬ 100 ≤ v % 1000 by omega, show 10 ≤ v % 100 by omega,
      show v < 10000 by omega, show v < 1000 by omega, show v < 100 from c',
      show ¬ v < 10 by omega]
  rcases Nat.lt_or_ge v 1000 with c'' | c''
  · simp [show ¬ 10000 ≤ v by omega, show ¬ 1000 ≤ v % 10000 by omega,
      show 100 ≤ v % 1000 by omega,
      show v < 10000 by omega, show v < 1000 from c'',
      show ¬ v < 100 by omega, show ¬ v < 10 by omega]
  rcases Nat.lt_or_ge v 10000 with c3 | c3
  · simp [show ¬ 10000 ≤ v by omega, show 1000 ≤ v % 10000 by omega,
      show v < 10000 from c3, show ¬ v < 1000 by omega,
      show ¬ v < 100 by omega, show ¬ v < 10 by omega]
  · simp [show 10000 ≤ v from c3, show ¬ v < 10000 by omega,
      show ¬ v < 1000 by omega, show ¬ v < 100 by omega, show ¬ v < 10 by omega]

theorem printDec12_digits (v : Nat) :
    OLED_printDec12 v = [v / 100 % 256, v % 100 / 10, v % 10] := by
  unfold OLED_printDec12
  rw [printDec12From_step 2 _ (by omega), printDec12From_step 3 _ (by omega),
    printDec12From_step 4 _ (by omega), printDec12From_five]
  have g2 : DIVIDER.getD 2 1 = 100 := rfl
  have g3 : DIVIDER.getD 3 1 = 10 := rfl
  have g4 : DIVIDER.getD 4 1 = 1 := rfl
  rw [g2, g3, g4]
  have m3 : v % 100 % 10 = v % 10 := Nat.mod_mod_of_dvd v (by norm_num)
  rw [m3]
  have n2 : v % 100 / 10 % 256 = v % 100 / 10 := by omega
  have n3 : v % 10 / 1 % 256 = v % 10 := by omega
  rw [n2, n3]

theorem mask_bit_low : ∀ i < 2, Nat.testBit 65532 i = false := by
  decide

theorem mask_bit_mid : ∀ i < 16, 2 ≤ i → Nat.testBit 65532 i = true := by
  decide

theorem land_mask_low_two (x : Nat) (h : x < 32768) :
    x &&& 0xFFFC = 4 * (x / 4) := by
  have h4 : 4 * (x / 4) = (x >>> 2) <<< 2 := by
    rw [Nat.shiftLeft_eq, Nat.shiftRight_eq_div_pow]
    norm_num [Nat.mul_comm]
  rw [h4]
  apply Nat.eq_of_testBit_eq
  intro i
  rw [Nat.testBit_and, Nat.testBit_shiftLeft, Nat.testBit_shiftRight]
  rcases Nat.lt_or_ge i 2 with hlo | hlo
  · rw [mask_bit_low i hlo]
    simp [Nat.not_le.mpr hlo]
  rcases Nat.lt_or_ge i 16 with hmid | hhi
  · rw [mask_bit_mid i hmid hlo]
    have : 2 + (i - 2) = i := by omega
    simp [hlo, this]
  · have hm : Nat.testBit 65532 i = false := by
      apply Nat.testBit_lt_two_pow
      calc 65532 < 2 ^ 16 := by norm_num
        _ ≤ 2 ^ i := Nat.pow_le_pow_right (by norm_num) hhi
    have hx : Nat.testBit x (2 + (i - 2)) = false := by
      apply Nat.testBit_lt_two_pow
      calc x < 2 ^ 15 := h
        _ ≤ 2 ^ (2 + (i - 2)) := Nat.pow_le_pow_right (by norm_num) (by omega)
    simp [hm, hx]

theorem parse_printDec16 (v : Nat) (h : v < 65536) :
    parseDec5 (OLED_printDec16 v) = v := by
  rw [printDec16_digits v (by omega)]
  simp only [parseDec5, List.foldl, SPACE]
  split_ifs <;> omega

theorem parse_printDec12 (v : Nat) (h : v ≤ 999) :
    parseDec3 (OLED_printDec12 v) = v := by
  rw [printDec12_digits v]
  simp only [parseDec3, List.foldl]
  omega

/-- C3: the current decode returns 0 whenever the raw register value
exceeds 32767 (sign bit set), and returns the raw value unchanged
otherwise; in particular raw 0x8000 yields 0 and raw 0x1388 yields 5000. -/
theorem C3_current_clamp :
    (∀ raw, 32767 < raw → INA_readCurrent raw = 0) ∧
    (∀ raw, raw ≤ 32767 → INA_readCurrent raw = raw) ∧
    INA_readCurrent 0x8000 = 0 ∧ INA_readCurrent 0x1388 = 5000 := by
  refine ⟨?_, ?_, by decide, by decide⟩
  · intro raw h
    simp [INA_readCurrent, h]
  · intro raw h
    simp [INA_readCurrent, Nat.not_lt.mpr h]

theorem C3_current_clamp_witness :
    32767 < 40000 ∧ INA_readCurrent 40000 = 0 ∧
      5000 ≤ 32767 ∧ INA_readCurrent 5000 = 5000 :=
  ⟨by decide, C3_current_clamp.1 40000 (by decide),
    by decide, C3_current_clamp.2.1 5000 (by decide)⟩

/-- C4: for every raw 16-bit bus-voltage register value, the voltage decode
returns the raw value shifted right by one with the two least-significant
status bits masked off, `(raw >>> 1) &&& 0xFFFC`; equivalently it equals
`4 * (raw / 8)` and is always a multiple of 4. -/
theorem C4_voltage_decode (raw : Nat) (h : raw < 65536) :
    INA_readVoltage raw = (raw >>> 1) &&& 0xFFFC ∧
      INA_readVoltage raw = 4 * (raw / 8) ∧ INA_readVoltage raw % 4 = 0 := by
  have hs : raw >>> 1 = raw / 2 := by
    rw [Nat.shiftRight_eq_div_pow]
  have hm := land_mask_low_two (raw / 2) (by omega)
  have key : INA_readVoltage raw = 4 * (raw / 8) := by
    unfold INA_readVoltage
    rw [hs, hm, Nat.div_div_eq_div_mul]
  exact ⟨rfl, key, by rw [key]; omega⟩

theorem C4_voltage_decode_witness :
    (0x0064 : Nat) < 65536 ∧ INA_readVoltage 0x0064 = 4 * (0x0064 / 8) :=
  ⟨by decide, (C4_voltage_decode 0x0064 (by decide)).2.1⟩

/-- C6 (amended): the decimal print/parse round trip holds on the full
`uint16_t` domain of the printers: for every `v` in [0, 65535] parsing the
five glyphs of `OLED_printDec16` (reading SPACE fillers as absent digits)
recovers `v`, and for every `v` in [0, 999] parsing the three glyphs of
`OLED_printDec12` recovers `v`. -/
theorem C6_decimal_roundtrip :
    (∀ v < 65536, parseDec5 (OLED_printDec16 v) = v) ∧
    (∀ v ≤ 999, parseDec3 (OLED_printDec12 v) = v) := by
  exact ⟨fun v hv => parse_printDec16 v hv, fun v hv => parse_printDec12 v hv⟩

theorem C6_decimal_roundtrip_witness :
    12345 < 65536 ∧ parseDec5 (OLED_printDec16 12345) = 12345 ∧
      987 ≤ 999 ∧ parseDec3 (OLED_printDec12 987) = 987 :=
  ⟨by decide, C6_decimal_roundtrip.1 12345 (by decide),
    by decide, C6_decimal_roundtrip.2 987 (by decide)⟩

/-- C6 counterexample to the claim as stated: the printer's parameter is a
`uint16_t`, so calling it with 70000 (a value in the claimed range
[0, 99999]) truncates the argument to 4464 and the round trip fails. -/
theorem C6_roundtrip_counterexample :
    parseDec5 (OLED_printDec16_call 70000) ≠ 70000 := by
  have e : OLED_printDec16_call 70000 = OLED_printDec16 4464 := by
    unfold OLED_printDec16_call UINT16_MOD
    norm_num
  rw [e, parse_printDec16 4464 (by norm_num)]
  norm_num

/-- C7: for every `uint16_t` input, `OLED_printDec16` emits the SPACE
filler at each leading position before the first nonzero digit, except the
final position whose digit is always printed (even for value 0), while
`OLED_printDec12` prints the computed digit glyph at every position with
no space filling — the computed digit being the `uint8_t` subtraction
count, which at the first position is `v / 100` truncated mod 256 (the
remaining positions count at most 9). -/
theorem C7_filler_policy (v : Nat) (h : v < 65536) :
    OLED_printDec16 v =
      [if v < 10000 then SPACE else v / 10000,
       if v < 1000 then SPACE else v % 10000 / 1000,
       if v < 100 then SPACE else v % 1000 / 100,
       if v < 10 then SPACE else v % 100 / 10,
       v % 10] ∧
    OLED_printDec12 v = [v / 100 % 256, v % 100 / 10, v % 10] :=
  ⟨printDec16_digits v (by omega), printDec12_digits v⟩

theorem C7_filler_policy_witness :
    (0 : Nat) < 65536 ∧ OLED_printDec16 0 = [SPACE, SPACE, SPACE, SPACE, 0] ∧
      OLED_printDec12 0 = [0, 0, 0] := by
  have h := C7_filler_policy 0 (by decide)
  refine ⟨by decide, ?_, ?_⟩
  · rw [h.1]
    simp
  · rw [h.2]

theorem mainRun_nil (s : MainState) : mainRun s [] = s := rfl

theorem mainRun_cons (s : MainState) (i : MainInput) (is : List MainInput) :
    mainRun s (i :: is) = mainRun (mainStep s i) is := rfl

theorem mainStep_minvoltage (s : MainState) (inp : MainInput) :
    (mainStep s inp).minvoltage =
      if s.minvoltage > INA_readVoltage inp.rawVoltage
        then INA_readVoltage inp.rawVoltage else s.minvoltage := rfl

theorem mainStep_maxvoltage (s : MainState) (inp : MainInput) :
    (mainStep s inp).maxvoltage =
      if s.maxvoltage < INA_readVoltage inp.rawVoltage
        then INA_readVoltage inp.rawVoltage else s.maxvoltage := rfl

theorem mainStep_mincurrent (s : MainState) (inp : MainInput) :
    (mainStep s inp).mincurrent =
      if s.mincurrent > INA_readCurrent inp.rawCurrent
        then INA_readCurrent inp.rawCurrent else s.mincurrent := rfl

theorem mainStep_maxcurrent (s : MainState) (inp : MainInput) :
    (mainStep s inp).maxcurrent =
      if s.maxcurrent < INA_readCurrent inp.rawCurrent
        then INA_readCurrent inp.rawCurrent else s.maxcurrent := rfl

theorem mainStep_minpower (s : MainState) (inp : MainInput) :
    (mainStep s inp).minpower =
      if s.minpower > mainPower (INA_readVoltage inp.rawVoltage) (INA_readCurrent inp.rawCurrent)
        then mainPower (INA_readVoltage inp.rawVoltage) (INA_readCurrent inp.rawCurrent)
        else s.minpower := rfl

theorem mainStep_maxpower (s : MainState) (inp : MainInput) :
    (mainStep s inp).maxpower =
      if s.maxpower < mainPower (INA_readVoltage inp.rawVoltage) (INA_readCurrent inp.rawCurrent)
        then mainPower (INA_readVoltage inp.rawVoltage) (INA_readCurrent inp.rawCurrent)
        else s.maxpower := rfl

theorem mainStep_lastmillis (s : MainState) (inp : MainInput) :
    (mainStep s inp).lastmillis = inp.now % UINT32_MOD := rfl

theorem mainStep_duration (s : MainState) (inp : MainInput) :
    (mainStep s inp).duration = (s.duration + mainInterval s inp) % UINT32_MOD := rfl

theorem mainStep_capacity (s : MainState) (inp : MainInput) :
    (mainStep s inp).capacity = (s.capacity + mainCapInc s inp) % UINT32_MOD := rfl

theorem mainStep_energy (s : MainState) (inp : MainInput) :
    (mainStep s inp).energy = (s.energy + mainEnInc s inp) % UINT32_MOD := rfl

theorem mainStep_primescreen (s : MainState) (inp : MainInput) :
    (mainStep s inp).primescreen =
      if inp.setHigh then s.primescreen
      else if s.lastbutton = 0 then
        (if (s.primescreen + 1) % 256 > 4 then 0 else (s.primescreen + 1) % 256)
      else s.primescreen := rfl

theorem mainStep_lastbutton (s : MainState) (inp : MainInput) :
    (mainStep s inp).lastbutton =
      if inp.setHigh then 0
      else if s.lastbutton = 0 then 1
      else s.lastbutton := rfl

theorem printPrg_takeWhile (s : List Nat) :
    OLED_printPrg s = ((s.takeWhile (fun c => c < 255)).map OLED_plotChar).join := by
  induction s with
  | nil => rfl
  | cons c cs ih =>
    by_cases h : c < 255
    · simp [OLED_printPrg, h, List.takeWhile_cons, ih]
    · simp [OLED_printPrg, h, List.takeWhile_cons]

/-- C8 (amended): the font table holds 19 glyphs of 12 bytes each; plotting
a valid glyph emits 16 bytes: 2 bytes of zero padding, the glyph's 12
font-table bytes (6 pixel columns of 2 bytes) read at offset
`12 * glyphIndex`, and 2 more bytes of zero padding.  The string printer
plots the string's glyphs in order until the sentinel terminator 255,
which never collides with a valid glyph index (0..18). -/
theorem C8_glyph_plotting :
    OLED_FONT.length = 19 * 12 ∧
    (∀ ch < 19, OLED_plotChar ch =
        [0, 0] ++ (OLED_FONT.drop (12 * ch)).take 12 ++ [0, 0] ∧
      (OLED_plotChar ch).length = 16) ∧
    (∀ s, OLED_printPrg s = ((s.takeWhile (fun c => c < 255)).map OLED_plotChar).join) ∧
    (∀ ch < 19, ch ≠ 255) := by
  refine ⟨by decide, by decide, printPrg_takeWhile, by decide⟩

theorem C8_glyph_plotting_witness :
    5 < 19 ∧ OLED_plotChar 5 = [0, 0] ++ (OLED_FONT.drop (12 * 5)).take 12 ++ [0, 0] :=
  ⟨by decide, (C8_glyph_plotting.2.1 5 (by decide)).1⟩

/-- C8 counterexample to the claim as stated: plotting a glyph emits a
16-byte stream, not a 12-byte pattern. -/
theorem C8_counterexample :
    (OLED_plotChar 0).length = 16 ∧ (OLED_plotChar 0).length ≠ 12 := by
  decide

theorem mainStep_extrema (s : MainState) (inp : MainInput) :
    (mainStep s inp).minvoltage ≤ INA_readVoltage inp.rawVoltage ∧
    INA_readVoltage inp.rawVoltage ≤ (mainStep s inp).maxvoltage ∧
    (mainStep s inp).mincurrent ≤ INA_readCurrent inp.rawCurrent ∧
    INA_readCurrent inp.rawCurrent ≤ (mainStep s inp).maxcurrent ∧
    (mainStep s inp).minpower ≤
      mainPower (INA_readVoltage inp.rawVoltage) (INA_readCurrent inp.rawCurrent) ∧
    mainPower (INA_readVoltage inp.rawVoltage) (INA_readCurrent inp.rawCurrent) ≤
      (mainStep s inp).maxpower := by
  rw [mainStep_minvoltage, mainStep_maxvoltage, mainStep_mincurrent,
    mainStep_maxcurrent, mainStep_minpower, mainStep_maxpower]
  split_ifs <;> omega

/-- C2: for every run of the main loop (starting from the initial state
with min/max pairs {65535, 0}) and every further iteration, after that
iteration's extrema update the invariant min ≤ observed ≤ max holds for
the iteration's voltage, current and power. -/
theorem C2_extrema_invariant (m0 : Nat) (l : List MainInput) (inp : MainInput) :
    (mainStep (mainRun (mainInit m0) l) inp).minvoltage ≤ INA_readVoltage inp.rawVoltage ∧
    INA_readVoltage inp.rawVoltage ≤ (mainStep (mainRun (mainInit m0) l) inp).maxvoltage ∧
    (mainStep (mainRun (mainInit m0) l) inp).mincurrent ≤ INA_readCurrent inp.rawCurrent ∧
    INA_readCurrent inp.rawCurrent ≤ (mainStep (mainRun (mainInit m0) l) inp).maxcurrent ∧
    (mainStep (mainRun (mainInit m0) l) inp).minpower ≤
      mainPower (INA_readVoltage inp.rawVoltage) (INA_readCurrent inp.rawCurrent) ∧
    mainPower (INA_readVoltage inp.rawVoltage) (INA_readCurrent inp.rawCurrent) ≤
      (mainStep (mainRun (mainInit m0) l) inp).maxpower :=
  mainStep_extrema (mainRun (mainInit m0) l) inp

theorem mainStep_primescreen_lt (s : MainState) (inp : MainInput)
    (h : s.primescreen < 5) : (mainStep s inp).primescreen < 5 := by
  rw [mainStep_primescreen]
  split_ifs <;> omega

theorem mainRun_primescreen (l : List MainInput) :
    ∀ s : MainState, s.primescreen < 5 →
      (mainRun s l).primescreen =
        (s.primescreen +
          countTrans (s.lastbutton != 0) (l.map (fun i => !i.setHigh))) % 5 := by
  induction l with
  | nil =>
    intro s h
    simp [mainRun_nil, countTrans, Nat.mod_eq_of_lt h]
  | cons i is ih =>
    intro s h
    rw [mainRun_cons, ih (mainStep s i) (mainStep_primescreen_lt s i h), List.map_cons]
    by_cases hset : i.setHigh
    · have hb : (!i.setHigh) = false := by simp [hset]
      rw [mainStep_primescreen, mainStep_lastbutton, if_pos hset, if_pos hset, hb]
      simp [countTrans]
    · have hb : (!i.setHigh) = true := by simp [hset]
      by_cases hlb : s.lastbutton = 0
      · have hp : (s.lastbutton != 0) = false := by simp [hlb]
        rw [mainStep_primescreen, mainStep_lastbutton, if_neg hset, if_neg hset,
          if_pos hlb, if_pos hlb, hb, hp]
        simp only [countTrans]
        simp
        split_ifs <;> omega
      · have hp : (s.lastbutton != 0) = true := by simp [hlb]
        rw [mainStep_primescreen, mainStep_lastbutton, if_neg hset, if_neg hset,
          if_neg hlb, if_neg hlb, hb, hp]
        simp [countTrans]

/-- C1: starting from screen index 0 (`primescreen = 0`, `lastbutton = 1`),
for every sequence of polled inputs the screen index equals n mod 5 where
n is the number of released→pressed transitions between consecutive poll
iterations; a press held over several iterations is one transition and so
advances the index exactly once. -/
theorem C1_screen_index_mod5 (m0 : Nat) (inputs : List MainInput) :
    (mainRun (mainInit m0) inputs).primescreen =
      countTrans true (inputs.map (fun i => !i.setHigh)) % 5 := by
  have h := mainRun_primescreen inputs (mainInit m0) (by simp [mainInit])
  simpa [mainInit] using h

/-- C5 (amended): `duration`, `capacity` and `energy` are non-decreasing
across any iteration in which their 32-bit additions do not wrap, i.e.
whenever old value + increment stays below 2^32.  (The claim as stated
fails: the accumulators are `uint32_t` and wrap mod 2^32, see the
counterexample.) -/
theorem C5_accumulators_monotone (s : MainState) (inp : MainInput)
    (hd : s.duration + mainInterval s inp < UINT32_MOD)
    (hc : s.capacity + mainCapInc s inp < UINT32_MOD)
    (he : s.energy + mainEnInc s inp < UINT32_MOD) :
    s.duration ≤ (mainStep s inp).duration ∧
      s.capacity ≤ (mainStep s inp).capacity ∧
      s.energy ≤ (mainStep s inp).energy := by
  rw [mainStep_duration, mainStep_capacity, mainStep_energy,
    Nat.mod_eq_of_lt hd, Nat.mod_eq_of_lt hc, Nat.mod_eq_of_lt he]
  omega

theorem C5_accumulators_monotone_witness :
    (mainInit 0).duration + mainInterval (mainInit 0) ⟨10000, 1000, 50, true⟩ < UINT32_MOD ∧
      (mainInit 0).capacity + mainCapInc (mainInit 0) ⟨10000, 1000, 50, true⟩ < UINT32_MOD ∧
      (mainInit 0).energy + mainEnInc (mainInit 0) ⟨10000, 1000, 50, true⟩ < UINT32_MOD ∧
      ((mainInit 0).duration ≤ (mainStep (mainInit 0) ⟨10000, 1000, 50, true⟩).duration ∧
        (mainInit 0).capacity ≤ (mainStep (mainInit 0) ⟨10000, 1000, 50, true⟩).capacity ∧
        (mainInit 0).energy ≤ (mainStep (mainInit 0) ⟨10000, 1000, 50, true⟩).energy) :=
  ⟨by decide, by decide, by decide,
    C5_accumulators_monotone (mainInit 0) ⟨10000, 1000, 50, true⟩
      (by decide) (by decide) (by decide)⟩

/-- C5 counterexample to the claim as stated: `duration` is a `uint32_t`
and wraps.  With millis readings 4294967295 and then 1 (intervals
4294967295 and 2, both non-negative), `duration` goes from 4294967295 down
to 1 — a software path on which an accumulator decreases. -/
theorem C5_counterexample :
    (mainStep (mainInit 0) ⟨0, 0, 4294967295, true⟩).duration = 4294967295 ∧
    (mainStep (mainStep (mainInit 0) ⟨0, 0, 4294967295, true⟩) ⟨0, 0, 1, true⟩).duration = 1 ∧
    ¬ ((mainStep (mainInit 0) ⟨0, 0, 4294967295, true⟩).duration ≤
        (mainStep (mainStep (mainInit 0) ⟨0, 0, 4294967295, true⟩) ⟨0, 0, 1, true⟩).duration) := by
  decide

/-- C10: the Duration screen's HH:MM:SS derives from the 16-bit `seconds`
variable `(duration / 1000) % 65536`, so at any `duration` of at least
65,536,000 ms the displayed time equals that displayed for
`duration % 65,536,000` — the display wraps after 65535 seconds. -/
theorem C10_seconds_wrap (d : Nat) (h1 : d < UINT32_MOD) (h2 : 65536000 ≤ d) :
    mainSeconds d = mainSeconds (d % 65536000) ∧
      screen4Glyphs (mainSeconds d) = screen4Glyphs (mainSeconds (d % 65536000)) := by
  have key : mainSeconds d = mainSeconds (d % 65536000) := by
    unfold mainSeconds UINT16_MOD
    omega
  exact ⟨key, by rw [key]⟩

theorem C10_seconds_wrap_witness :
    69136000 < UINT32_MOD ∧ 65536000 ≤ 69136000 ∧
      screen4Glyphs (mainSeconds 69136000) =
        screen4Glyphs (mainSeconds (69136000 % 65536000)) :=
  ⟨by decide, by decide, (C10_seconds_wrap 69136000 (by decide) (by decide)).2⟩

theorem capSum_cons (i : Nat) (is : List Nat) :
    capSum (i :: is) = i * 1000 / 3600 + capSum is := by
  simp [capSum]

theorem enSum_cons (i : Nat) (is : List Nat) :
    enSum (i :: is) = i * 5000 / 3600 + enSum is := by
  simp [enSum]

theorem capSum_le (l : List Nat) : 3600 * capSum l ≤ 1000 * l.sum := by
  induction l with
  | nil => simp [capSum]
  | cons i is ih =>
    rw [capSum_cons, List.sum_cons]
    omega

theorem capSum_ge (l : List Nat) :
    1000 * l.sum ≤ 3600 * capSum l + 3599 * l.length := by
  induction l with
  | nil => simp [capSum]
  | cons i is ih =>
    rw [capSum_cons, List.sum_cons, List.length_cons]
    omega

theorem enSum_le (l : List Nat) : 3600 * enSum l ≤ 5000 * l.sum := by
  induction l with
  | nil => simp [enSum]
  | cons i is ih =>
    rw [enSum_cons, List.sum_cons]
    omega

theorem enSum_ge (l : List Nat) :
    5000 * l.sum ≤ 3600 * enSum l + 3599 * l.length := by
  induction l with
  | nil => simp [enSum]
  | cons i is ih =>
    rw [enSum_cons, List.sum_cons, List.length_cons]
    omega

theorem c9_run (ivs : List Nat) :
    ∀ (s : MainState) (m : Nat), s.lastmillis = m →
      m + ivs.sum < UINT32_MOD →
      (∀ i ∈ ivs, i * 5000 < UINT32_MOD) →
      s.capacity + capSum ivs < UINT32_MOD →
      s.energy + enSum ivs < UINT32_MOD →
      (mainRun s (c9Inputs m ivs)).capacity = s.capacity + capSum ivs ∧
        (mainRun s (c9Inputs m ivs)).energy = s.energy + enSum ivs := by
  induction ivs with
  | nil =>
    intro s m hm hsum hall hc he
    simp [c9Inputs, mainRun_nil, capSum, enSum]
  | cons i is ih =>
    intro s m hm hsum hall hc he
    have hi5 : i * 5000 < UINT32_MOD := hall i (List.mem_cons_self i is)
    have hsum' : m + (i + is.sum) < UINT32_MOD := by
      rw [List.sum_cons] at hsum
      exact hsum
    have hmi : m + i < UINT32_MOD := by omega
    have hi : i < UINT32_MOD := by omega
    have hi1 : i * 1000 < UINT32_MOD := by omega
    have hc' : s.capacity + (i * 1000 / 3600 + capSum is) < UINT32_MOD := by
      rw [capSum_cons] at hc
      omega
    have he' : s.energy + (i * 5000 / 3600 + enSum is) < UINT32_MOD := by
      rw [enSum_cons] at he
      omega
    have hint : mainInterval s ⟨10000, 1000, m + i, true⟩ = i := by
      unfold mainInterval
      dsimp only
      rw [hm, Nat.mod_eq_of_lt hmi]
      have e : m + i + UINT32_MOD - m = i + UINT32_MOD := by omega
      rw [e, Nat.add_mod_right, Nat.mod_eq_of_lt hi]
    have hcur : INA_readCurrent 1000 = 1000 := by decide
    have hpow : mainPower (INA_readVoltage 10000) (INA_readCurrent 1000) = 5000 := by
      decide
    have hcap : mainCapInc s ⟨10000, 1000, m + i, true⟩ = i * 1000 / 3600 := by
      unfold mainCapInc
      dsimp only
      rw [hint, hcur, Nat.mod_eq_of_lt hi1]
    have hen : mainEnInc s ⟨10000, 1000, m + i, true⟩ = i * 5000 / 3600 := by
      unfold mainEnInc
      dsimp only
      rw [hint, hpow, Nat.mod_eq_of_lt hi5]
    have hstep_cap :
        (mainStep s ⟨10000, 1000, m + i, true⟩).capacity =
          s.capacity + i * 1000 / 3600 := by
      rw [mainStep_capacity, hcap, Nat.mod_eq_of_lt (by omega)]
    have hstep_en :
        (mainStep s ⟨10000, 1000, m + i, true⟩).energy =
          s.energy + i * 5000 / 3600 := by
      rw [mainStep_energy, hen, Nat.mod_eq_of_lt (by omega)]
    have hstep_lm :
        (mainStep s ⟨10000, 1000, m + i, true⟩).lastmillis = m + i := by
      rw [mainStep_lastmillis]
      dsimp only
      exact Nat.mod_eq_of_lt hmi
    obtain ⟨ihc, ihe⟩ := ih (mainStep s ⟨10000, 1000, m + i, true⟩) (m + i)
      hstep_lm (by omega)
      (fun j hj => hall j (List.mem_cons_of_mem _ hj))
      (by rw [hstep_cap]; omega)
      (by rw [hstep_en]; omega)
    have hin : c9Inputs m (i :: is) =
        (⟨10000, 1000, m + i, true⟩ : MainInput) :: c9Inputs (m + i) is := rfl
    rw [hin, mainRun_cons]
    rw [capSum_cons, enSum_cons]
    exact ⟨by rw [ihc, hstep_cap]; omega, by rw [ihe, hstep_en]; omega⟩

/-- C9 (amended): for every run over positive intervals summing to
3,600,000 ms with constant readings decoding to 5000 mV and 1000 mA, and
with each single interval at most 858,993 ms (so that the `uint32_t`
product interval × power cannot wrap), the computed power is 5000 mW, the
final capacity lies in (1,000,000 − n, 1,000,000] µAh and the final energy
in (5,000,000 − n, 5,000,000] µWh, n the number of iterations.  (Without
the per-interval bound the claim fails, see the counterexample.) -/
theorem C9_constant_load_bounds (ivs : List Nat)
    (hpos : ∀ i ∈ ivs, 0 < i)
    (hbound : ∀ i ∈ ivs, i ≤ 858993)
    (hsum : ivs.sum = 3600000) :
    mainPower (INA_readVoltage 10000) (INA_readCurrent 1000) = 5000 ∧
    1000000 < (mainRun (mainInit 0) (c9Inputs 0 ivs)).capacity + ivs.length ∧
    (mainRun (mainInit 0) (c9Inputs 0 ivs)).capacity ≤ 1000000 ∧
    5000000 < (mainRun (mainInit 0) (c9Inputs 0 ivs)).energy + ivs.length ∧
    (mainRun (mainInit 0) (c9Inputs 0 ivs)).energy ≤ 5000000 := by
  have hall : ∀ i ∈ ivs, i * 5000 < UINT32_MOD := by
    intro i hi
    have := hbound i hi
    simp only [UINT32_MOD]
    omega
  have h1 := capSum_le ivs
  have h2 := capSum_ge ivs
  have h3 := enSum_le ivs
  have h4 := enSum_ge ivs
  rw [hsum] at h1 h2 h3 h4
  have hlen : 1 ≤ ivs.length := by
    cases ivs with
    | nil => simp at hsum
    | cons a l => simp
  have hcle : capSum ivs ≤ 1000000 := by omega
  have hele : enSum ivs ≤ 5000000 := by omega
  obtain ⟨hc, he⟩ := c9_run ivs (mainInit 0) 0 rfl
    (by simp only [UINT32_MOD]; omega)
    hall
    (by rw [show (mainInit 0).capacity = 0 from rfl]; simp only [UINT32_MOD]; omega)
    (by rw [show (mainInit 0).energy = 0 from rfl]; simp only [UINT32_MOD]; omega)
  rw [hc, he, show (mainInit 0).capacity = 0 from rfl,
    show (mainInit 0).energy = 0 from rfl]
  exact ⟨by decide, by omega, by omega, by omega, by omega⟩

theorem C9_constant_load_bounds_witness :
    (∀ i ∈ ([720000, 720000, 720000, 720000, 720000] : List Nat), 0 < i) ∧
    (∀ i ∈ ([720000, 720000, 720000, 720000, 720000] : List Nat), i ≤ 858993) ∧
    ([720000, 720000, 720000, 720000, 720000] : List Nat).sum = 3600000 ∧
    (mainPower (INA_readVoltage 10000) (INA_readCurrent 1000) = 5000 ∧
      1000000 <
        (mainRun (mainInit 0)
          (c9Inputs 0 [720000, 720000, 720000, 720000, 720000])).capacity +
          ([720000, 720000, 720000, 720000, 720000] : List Nat).length ∧
      (mainRun (mainInit 0)
        (c9Inputs 0 [720000, 720000, 720000, 720000, 720000])).capacity ≤ 1000000 ∧
      5000000 <
        (mainRun (mainInit 0)
          (c9Inputs 0 [720000, 720000, 720000, 720000, 720000])).energy +
          ([720000, 720000, 720000, 720000, 720000] : List Nat).length ∧
      (mainRun (mainInit 0)
        (c9Inputs 0 [720000, 720000, 720000, 720000, 720000])).energy ≤ 5000000) :=
  ⟨by decide, by decide, by decide,
    C9_constant_load_bounds [720000, 720000, 720000, 720000, 720000]
      (by decide) (by decide) (by decide)⟩

/-- C9 counterexample to the claim as stated: a single positive interval of
3,600,000 ms sums to 3,600,000, but the `uint32_t` product
interval × power = 18,000,000,000 wraps mod 2^32 to 820,130,816, so the
accumulated energy is 227,814 µWh instead of the claimed 5,000,000 −
the claimed lower bound 5,000,000 − n = 4,999,999 is violated. -/
theorem C9_counterexample :
    (mainStep (mainInit 0) ⟨10000, 1000, 3600000, true⟩).energy = 227814 ∧
    ¬ (5000000 - 1 < (mainStep (mainInit 0) ⟨10000, 1000, 3600000, true⟩).energy) := by
  decide
